import Mathlib

/-!
Verification of the aggregation / ranking / delivery pipeline of
`tech_trends_monitor.py` (class `TechTrendsMonitor`).

The Python code is shallowly embedded: each network-facing adapter becomes a
total Lean function over an explicit `Except`-typed response (`.error e`
models any exception raised inside the adapter's `try` block — network
failure, timeout, JSON/XML parse failure, missing mandatory key), JSON
objects become structures whose `.get(k)`-accessed optional fields are
`Option`-typed, and `os.environ` / SMTP effects become explicit parameters
of `run`.  Python truthiness of a string-or-absent value is `truthy`.
Python's `list.sort(key=..., reverse=True)` is a stable descending sort;
it is embedded as the structurally recursive stable insertion sort
`sortByPointsDesc` (a stable sort is extensionally determined by
sortedness, stability and being a permutation, all proved below).
-/

deriving instance DecidableEq for Except

/-- Canonical trend item: the dictionaries built by every adapter, with keys
`title`, `url`, `points`, `source`. -/
structure Trend where
  title : String
  url : String
  points : Int
  source : String
deriving DecidableEq, Repr

/-- Python truthiness of an optional string (absent or empty is falsy). -/
def truthy : Option String → Bool
  | none => false
  | some s => s != ""

/-- Bool test that `pat` occurs as a contiguous substring of `s`
(Python's `pat in s`). -/
def containsSub (s pat : String) : Bool :=
  decide (pat.data <:+: s.data)

/-! ## Hacker News adapter (`get_hacker_news_ai_posts`) -/

/-- One element of the Algolia response's `hits` array; `title`, `url` and
`points` are read with `.get`, so they are optional. -/
structure HNHit where
  title : Option String
  url : Option String
  points : Option Int
deriving DecidableEq, Repr

/-- Body of the `for hit in data.get('hits', [])` loop: an item is kept only
when `hit.get('title')` and `hit.get('url')` are both truthy. -/
def hnNormalize (h : HNHit) : Option Trend :=
  match h.title, h.url with
  | some t, some u =>
      if t != "" && u != "" then
        some ⟨t, u, h.points.getD 0, "Hacker News"⟩
      else none
  | _, _ => none

def get_hacker_news_ai_posts (resp : Except String (List HNHit)) : List Trend :=
  match resp with
  | .error _ => []
  | .ok hits => hits.filterMap hnNormalize

/-! ## Reddit adapter (`get_reddit_ml_posts`) -/

/-- One post's `data` object: `title`, `score` and `is_self` are read with
`.get`; `permalink` is indexed directly (absence would raise, which folds
into the adapter-level `.error`). -/
structure RedditPost where
  title : Option String
  permalink : String
  score : Option Int
  selfPost : Bool
deriving DecidableEq, Repr

/-- Body of the inner Reddit loop: keep a post when its title is truthy and
it is not a self post. -/
def redditNormalizePost (sub : String) (p : RedditPost) : Option Trend :=
  match p.title with
  | some t =>
      if t != "" && !p.selfPost then
        some ⟨t, "https://reddit.com" ++ p.permalink, p.score.getD 0, "r/" ++ sub⟩
      else none
  | none => none

def redditNormalize (sub : String) (posts : List RedditPost) : List Trend :=
  posts.filterMap (redditNormalizePost sub)

/-- The `for subreddit in subreddits` loop.  The whole loop sits inside one
`try`: an exception thrown while processing any subreddit aborts the loop
(`none`), discarding the accumulator. -/
def redditLoop : List (String × Except String (List RedditPost)) → List Trend →
    Option (List Trend)
  | [], acc => some acc
  | (_, .error _) :: _, _ => none
  | (sub, .ok posts) :: rest, acc => redditLoop rest (acc ++ redditNormalize sub posts)

/-- `get_reddit_ml_posts`, over one response per subreddit in the fixed order
`['MachineLearning', 'artificial', 'datascience']`; the `except` clause turns
an aborted loop into `[]`. -/
def get_reddit_ml_posts (r1 r2 r3 : Except String (List RedditPost)) : List Trend :=
  (redditLoop [("MachineLearning", r1), ("artificial", r2), ("datascience", r3)] []).getD []

/-! ## arXiv adapter (`get_arxiv_papers`) -/

/-- One Atom `entry`: `title` text (stripped by the code) and the `id` link.
A missing element raises, folding into the adapter-level `.error`. -/
structure ArxivEntry where
  title : String
  link : String
deriving DecidableEq, Repr

/-- Python's `str.strip()`: remove leading and trailing whitespace
(structurally recursive so that concrete runs evaluate). -/
def pyStrip (s : String) : String :=
  ⟨((s.data.dropWhile Char.isWhitespace).reverse.dropWhile Char.isWhitespace).reverse⟩

/-- Body of the entry loop: every entry is kept; the title text is stripped;
no validation of title or link is performed. -/
def arxivNormalize (e : ArxivEntry) : Trend :=
  ⟨pyStrip e.title, e.link, 0, "arXiv"⟩

def get_arxiv_papers (resp : Except String (List ArxivEntry)) : List Trend :=
  match resp with
  | .error _ => []
  | .ok entries => entries.map arxivNormalize

/-! ## NewsAPI adapter (`get_newsapi_articles`) -/

/-- One element of `articles`: `title` and `url` via `.get`, and
`article.get('source', {}).get('name', 'Unknown')`. -/
structure NewsArticle where
  title : Option String
  url : Option String
  sourceName : Option String
deriving DecidableEq, Repr

/-- The decoded NewsAPI body: its `status` string and `articles` array. -/
structure NewsResponse where
  status : String
  articles : List NewsArticle
deriving DecidableEq, Repr

/-- Body of the article loop: truthy `title` and `url`, and titles containing
`[Removed]` are skipped. -/
def newsNormalize (a : NewsArticle) : Option Trend :=
  match a.title, a.url with
  | some t, some u =>
      if t != "" && u != "" && !(containsSub t "[Removed]") then
        some ⟨t, u, 0, "News: " ++ a.sourceName.getD "Unknown"⟩
      else none
  | _, _ => none

/-- `get_newsapi_articles`: returns `[]` when the key is not configured,
when the request raised, or when the body's `status` is not `ok`. -/
def get_newsapi_articles (key : Option String) (resp : Except String NewsResponse) :
    List Trend :=
  if truthy key then
    match resp with
    | .error _ => []
    | .ok r =>
        if r.status != "ok" then []
        else r.articles.filterMap newsNormalize
  else []

/-! ## GitHub adapter (`get_github_trending`) -/

/-- One element of `items`: `name` and `html_url` are indexed directly,
`description` is checked with `.get` and `stargazers_count` read with
`.get(..., 0)`. -/
structure Repo where
  name : String
  description : Option String
  htmlUrl : String
  stars : Option Int
deriving DecidableEq, Repr

/-- Body of the repo loop: every repo is kept; the title is
`f"{name} - {description[:100]}..."` when the description is truthy,
else `name`. -/
def githubNormalize (r : Repo) : Trend :=
  ⟨if truthy r.description then r.name ++ " - " ++ (r.description.getD "").take 100 ++ "..."
    else r.name,
   r.htmlUrl, r.stars.getD 0, "GitHub Trending"⟩

def get_github_trending (resp : Except String (List Repo)) : List Trend :=
  match resp with
  | .error _ => []
  | .ok repos => repos.map githubNormalize

/-! ## Ranking (`compile_trends`)

`all_trends.sort(key=lambda x: x['points'], reverse=True)` is Python's
stable sort under the reversed key order: an element moves before another
exactly when its `points` is strictly greater, equal-`points` elements keep
their input order.  `sortByPointsDesc` is that function. -/

/-- Insert `x` in front of the first element whose `points` does not exceed
`x.points` (so `x`, coming earlier in the input, stays before equal-points
elements of the sorted tail). -/
def insertDesc (x : Trend) : List Trend → List Trend
  | [] => [x]
  | y :: ys => if y.points ≤ x.points then x :: y :: ys else y :: insertDesc x ys

/-- Stable descending sort by `points`. -/
def sortByPointsDesc : List Trend → List Trend
  | [] => []
  | x :: xs => insertDesc x (sortByPointsDesc xs)

/-! ## Configuration and pipeline -/

/-- The four environment variables read in `__init__`. -/
structure Config where
  email_user : Option String
  email_password : Option String
  recipient_email : Option String
  newsapi_key : Option String
deriving DecidableEq, Repr

/-- The external world of one run: one response per adapter request, in the
order the adapters issue them. -/
structure FetchResponses where
  hn : Except String (List HNHit)
  reddit1 : Except String (List RedditPost)
  reddit2 : Except String (List RedditPost)
  reddit3 : Except String (List RedditPost)
  arxiv : Except String (List ArxivEntry)
  github : Except String (List Repo)
  news : Except String NewsResponse
deriving DecidableEq, Repr

/-- `all_trends` right before sorting: the `extend` calls in source order. -/
def allCandidates (cfg : Config) (r : FetchResponses) : List Trend :=
  get_hacker_news_ai_posts r.hn
    ++ get_reddit_ml_posts r.reddit1 r.reddit2 r.reddit3
    ++ get_arxiv_papers r.arxiv
    ++ get_github_trending r.github
    ++ get_newsapi_articles cfg.newsapi_key r.news

/-- `compile_trends`: concatenate all adapters' items, sort by `points`
descending (stable), return the first 20. -/
def compile_trends (cfg : Config) (r : FetchResponses) : List Trend :=
  (sortByPointsDesc (allCandidates cfg r)).take 20

/-- Observable effects and result of one `run()` call. -/
structure RunTrace where
  fetched : Bool
  emailAttempted : Bool
  emailTrends : Option (List Trend)
  result : Bool
deriving DecidableEq, Repr

/-- `run()`: validate the three required environment variables (Python
`all([...])`, i.e. truthiness of each); on failure return `False` without
fetching.  Otherwise compile the trends and hand them to `send_email`,
whose SMTP outcome `smtpOk` becomes the run's result.  `send_email` is
called unconditionally — also on an empty trends list. -/
def run (cfg : Config) (r : FetchResponses) (smtpOk : Bool) : RunTrace :=
  if truthy cfg.email_user && truthy cfg.email_password && truthy cfg.recipient_email then
    let trends := compile_trends cfg r
    ⟨true, true, some trends, smtpOk⟩
  else
    ⟨false, false, none, false⟩

/-! ## Delivery ledger (spec §4.3 / §6) -/

/-- Modelled from the spec: the repository's single source file contains no
Delivery Ledger — no persisted set of delivered urls, no `load`, `save` or
`commit` operation exists in the code.  Following the spec's words, the
persisted form is a flat serialized collection of url strings; `ledgerSave`
serializes a set of urls. -/
def ledgerSave (s : Finset String) : List String :=
  s.sort (· ≤ ·)

/-- Modelled from the spec: `load() -> set of url`, returning the empty set
when the backing store is absent. -/
def ledgerLoad : Option (List String) → Finset String
  | none => ∅
  | some l => l.toFinset

/-- Modelled from the spec: `commit(urls)` merges the given urls into the
persisted set. -/
def ledgerCommit (cur urls : Finset String) : List String :=
  ledgerSave (cur ∪ urls)

/-! ## Properties of the stable descending sort -/

theorem insertDesc_perm (x : Trend) : ∀ l : List Trend, List.Perm (insertDesc x l) (x :: l)
  | [] => .refl _
  | y :: ys => by
    unfold insertDesc
    split
    · exact .refl _
    · exact ((insertDesc_perm x ys).cons y).trans (List.Perm.swap x y ys)

theorem sortByPointsDesc_perm : ∀ l : List Trend, List.Perm (sortByPointsDesc l) l
  | [] => .refl _
  | x :: xs => by
    unfold sortByPointsDesc
    exact (insertDesc_perm x (sortByPointsDesc xs)).trans ((sortByPointsDesc_perm xs).cons x)

theorem mem_insertDesc {z x : Trend} {l : List Trend} (h : z ∈ insertDesc x l) :
    z = x ∨ z ∈ l := by
  have := (insertDesc_perm x l).mem_iff.mp h
  simpa using this

theorem pairwise_insertDesc {x : Trend} : ∀ {l : List Trend},
    l.Pairwise (fun a b => b.points ≤ a.points) →
    (insertDesc x l).Pairwise (fun a b => b.points ≤ a.points)
  | [], _ => by simp [insertDesc]
  | y :: ys, h => by
    rw [List.pairwise_cons] at h
    unfold insertDesc
    split
    · rename_i hyx
      rw [List.pairwise_cons]
      refine ⟨?_, List.pairwise_cons.mpr h⟩
      intro z hz
      rcases List.mem_cons.mp hz with rfl | hz
      · exact hyx
      · exact le_trans (h.1 z hz) hyx
    · rename_i hyx
      rw [List.pairwise_cons]
      refine ⟨?_, pairwise_insertDesc h.2⟩
      intro z hz
      rcases mem_insertDesc hz with rfl | hz
      · exact le_of_lt (lt_of_not_le hyx)
      · exact h.1 z hz

theorem sortByPointsDesc_pairwise : ∀ l : List Trend,
    (sortByPointsDesc l).Pairwise (fun a b => b.points ≤ a.points)
  | [] => by simp [sortByPointsDesc]
  | x :: xs => by
    unfold sortByPointsDesc
    exact pairwise_insertDesc (sortByPointsDesc_pairwise xs)

theorem filter_insertDesc_eq {x : Trend} {p : Int} (hx : x.points = p) :
    ∀ l : List Trend, (insertDesc x l).filter (fun t => t.points == p)
      = x :: l.filter (fun t => t.points == p)
  | [] => by simp [insertDesc, List.filter, hx]
  | y :: ys => by
    unfold insertDesc
    split
    · simp [List.filter_cons, hx]
    · rename_i hyx
      have hy : (y.points == p) = false := by
        apply beq_false_of_ne
        intro hyp
        exact hyx (by rw [hyp, ← hx])
      simp only [List.filter_cons, hy, cond_false]
      exact filter_insertDesc_eq hx ys

theorem filter_insertDesc_ne {x : Trend} {p : Int} (hx : x.points ≠ p) :
    ∀ l : List Trend, (insertDesc x l).filter (fun t => t.points == p)
      = l.filter (fun t => t.points == p)
  | [] => by simp [insertDesc, List.filter, beq_false_of_ne hx]
  | y :: ys => by
    unfold insertDesc
    split
    · simp [List.filter_cons, beq_false_of_ne hx]
    · simp only [List.filter_cons]
      rw [filter_insertDesc_ne hx ys]

theorem sortByPointsDesc_stable : ∀ (l : List Trend) (p : Int),
    (sortByPointsDesc l).filter (fun t => t.points == p)
      = l.filter (fun t => t.points == p)
  | [], _ => rfl
  | x :: xs, p => by
    unfold sortByPointsDesc
    by_cases hx : x.points = p
    · rw [filter_insertDesc_eq hx, sortByPointsDesc_stable xs p,
        List.filter_cons, beq_iff_eq.mpr hx]
      rfl
    · rw [filter_insertDesc_ne hx, sortByPointsDesc_stable xs p,
        List.filter_cons, beq_false_of_ne hx]
      rfl

theorem filter_take_eq_take_filter (q : Trend → Bool) (l : List Trend) (n : Nat) :
    ∃ k, (l.take n).filter q = (l.filter q).take k := by
  refine ⟨((l.take n).filter q).length, ?_⟩
  calc (l.take n).filter q
      = ((l.take n).filter q ++ (l.drop n).filter q).take ((l.take n).filter q).length :=
        (List.take_left _ _).symm
    _ = ((l.take n ++ l.drop n).filter q).take ((l.take n).filter q).length := by
        rw [List.filter_append]
    _ = (l.filter q).take ((l.take n).filter q).length := by
        rw [List.take_append_drop]

/-! ## Properties of the per-item normalizers -/

theorem hnNormalize_title_url {h : HNHit} {t : Trend} (he : hnNormalize h = some t) :
    t.title ≠ "" ∧ t.url ≠ "" := by
  unfold hnNormalize at he
  split at he
  · split at he
    · rename_i tt u hcond
      cases he
      simp only [bne, Bool.and_eq_true, Bool.not_eq_eq_eq_not, Bool.not_true] at hcond
      exact ⟨ne_of_beq_false hcond.1, ne_of_beq_false hcond.2⟩
    · exact absurd he (by simp)
  · exact absurd he (by simp)

theorem append_reddit_ne_empty (s : String) : ("https://reddit.com" ++ s) ≠ "" := by
  intro h
  have h2 := congrArg String.length h
  rw [String.length_append] at h2
  have e1 : "https://reddit.com".length = 18 := rfl
  have e2 : "".length = 0 := rfl
  omega

theorem redditNormalizePost_title_url {sub : String} {p : RedditPost} {t : Trend}
    (he : redditNormalizePost sub p = some t) : t.title ≠ "" ∧ t.url ≠ "" := by
  unfold redditNormalizePost at he
  split at he
  · split at he
    · rename_i tt hcond
      cases he
      simp only [Bool.and_eq_true, bne, Bool.not_eq_eq_eq_not, Bool.not_true] at hcond
      exact ⟨ne_of_beq_false hcond.1, append_reddit_ne_empty _⟩
    · exact absurd he (by simp)
  · exact absurd he (by simp)

theorem newsNormalize_title_url {a : NewsArticle} {t : Trend} (he : newsNormalize a = some t) :
    t.title ≠ "" ∧ t.url ≠ "" := by
  unfold newsNormalize at he
  split at he
  · split at he
    · rename_i tt u hcond
      cases he
      simp only [Bool.and_eq_true, bne, Bool.not_eq_eq_eq_not, Bool.not_true] at hcond
      exact ⟨ne_of_beq_false hcond.1.1, ne_of_beq_false hcond.1.2⟩
    · exact absurd he (by simp)
  · exact absurd he (by simp)

theorem newsNormalize_not_removed {a : NewsArticle} {t : Trend}
    (he : newsNormalize a = some t) : containsSub t.title "[Removed]" = false := by
  unfold newsNormalize at he
  split at he
  · split at he
    · rename_i tt u hcond
      cases he
      simp only [Bool.and_eq_true, Bool.not_eq_eq_eq_not, Bool.not_true] at hcond
      exact hcond.2
    · exact absurd he (by simp)
  · exact absurd he (by simp)

/-- Every trend produced by the subreddit loop that is not already in the
accumulator comes from normalizing some post. -/
theorem redditLoop_mem : ∀ (subs : List (String × Except String (List RedditPost)))
    (acc out : List Trend), redditLoop subs acc = some out → ∀ t ∈ out,
    t ∈ acc ∨ ∃ sub p, redditNormalizePost sub p = some t
  | [], acc, out, h, t, ht => by
    cases h
    exact .inl ht
  | (sub, .error e) :: rest, acc, out, h, t, ht => by
    exact absurd h (by simp [redditLoop])
  | (sub, .ok posts) :: rest, acc, out, h, t, ht => by
    rcases redditLoop_mem rest _ out h t ht with hacc | hsome
    · rcases List.mem_append.mp hacc with hl | hr
      · exact .inl hl
      · obtain ⟨p, _, hp⟩ := List.mem_filterMap.mp hr
        exact .inr ⟨sub, p, hp⟩
    · exact .inr hsome

theorem get_reddit_ml_posts_mem {r1 r2 r3 : Except String (List RedditPost)} {t : Trend}
    (h : t ∈ get_reddit_ml_posts r1 r2 r3) :
    ∃ sub p, redditNormalizePost sub p = some t := by
  unfold get_reddit_ml_posts at h
  cases hL : redditLoop [("MachineLearning", r1), ("artificial", r2), ("datascience", r3)] [] with
  | none => rw [hL] at h; exact absurd h (by simp)
  | some out =>
      rw [hL] at h
      rcases redditLoop_mem _ _ _ hL t h with habs | hok
      · exact absurd habs (by simp)
      · exact hok

/-! ## Concrete fixtures -/

/-- A configuration in which all four environment variables are set. -/
def cfgAll : Config :=
  ⟨some "monitor@example.com", some "hunter2", some "reader@example.com", some "newskey"⟩

/-- A world in which every network request raises. -/
def respErr : FetchResponses :=
  ⟨.error "down", .error "down", .error "down", .error "down", .error "down",
   .error "down", .error "down"⟩

/-- A world in which only Hacker News answers, with one valid hit. -/
def respHNOnly : FetchResponses :=
  { respErr with
    hn := .ok [⟨some "Attention Is All You Need", some "https://example.com/delivered", some 42⟩] }

/-- A world in which Hacker News answers with two hits sharing one url. -/
def respDupUrl : FetchResponses :=
  { respErr with
    hn := .ok [⟨some "First copy", some "https://example.com/same", some 9⟩,
               ⟨some "Second copy", some "https://example.com/same", some 3⟩] }

/-- A world in which only arXiv answers, with one entry whose title is
whitespace (stripped to the empty string by the code). -/
def respArxivBlank : FetchResponses :=
  { respErr with arxiv := .ok [⟨"   ", "http://arxiv.org/abs/2401.0001"⟩] }

/-! ## Claims -/

/-- C1 (counterexample): `compile_trends` takes no ledger and filters
nothing against previously delivered urls.  With the delivery ledger
`["https://example.com/delivered"]` and a candidate carrying exactly that
url, the selection still returns that item. -/
theorem compile_trends_ignores_ledger_cex :
    (compile_trends cfgAll respHNOnly).any
      (fun t => ["https://example.com/delivered"].contains t.url) = true := by
  rfl

/-- C1 (amended): the selection stage performs no ledger-based filtering —
no ledger exists in the code and every returned item is simply drawn from
the concatenated candidate list, whether or not its url was delivered in a
previous run. -/
theorem compile_trends_mem_allCandidates (cfg : Config) (r : FetchResponses) (t : Trend)
    (h : t ∈ compile_trends cfg r) : t ∈ allCandidates cfg r := by
  have h1 : t ∈ sortByPointsDesc (allCandidates cfg r) := List.mem_of_mem_take h
  exact (sortByPointsDesc_perm _).mem_iff.mp h1

/-- Witness for C1 (amended): the surviving Hacker News item of
`respHNOnly` is among the candidates. -/
theorem compile_trends_mem_allCandidates_witness :
    (⟨"Attention Is All You Need", "https://example.com/delivered", 42, "Hacker News"⟩ : Trend)
      ∈ allCandidates cfgAll respHNOnly :=
  compile_trends_mem_allCandidates cfgAll respHNOnly _ (by decide)

/-- C2: the selection returns at most 20 items (the hard-coded top-N bound),
sorted by `points` descending, and stably: for every popularity value the
equal-`points` items of the output form an initial segment, in order, of
the equal-`points` items of the concatenated input. -/
theorem compile_trends_bounded_sorted_stable (cfg : Config) (r : FetchResponses) :
    (compile_trends cfg r).length ≤ 20 ∧
    (compile_trends cfg r).Pairwise (fun a b => b.points ≤ a.points) ∧
    ∀ p : Int, ∃ k, (compile_trends cfg r).filter (fun t => t.points == p)
      = ((allCandidates cfg r).filter (fun t => t.points == p)).take k := by
  refine ⟨List.length_take_le 20 _, ?_, ?_⟩
  · exact (sortByPointsDesc_pairwise _).sublist (List.take_sublist _ _)
  · intro p
    obtain ⟨k, hk⟩ := filter_take_eq_take_filter (fun t => t.points == p)
      (sortByPointsDesc (allCandidates cfg r)) 20
    refine ⟨k, ?_⟩
    unfold compile_trends
    rw [hk, sortByPointsDesc_stable]

/-- C3 (counterexample): with valid credentials and every source down, the
selection is empty, yet `run` still invokes `send_email` (with the empty
list) instead of exiting without notification. -/
theorem run_emails_on_empty_cex :
    compile_trends cfgAll respErr = [] ∧
    (run cfgAll respErr true).emailAttempted = true := by
  exact ⟨rfl, rfl⟩

/-- C3 (amended): when the selection stage returns an empty sequence, `run`
still calls `send_email` with that empty list (the generated email says no
trends were found); the run's result is the send outcome.  No ledger exists,
so no ledger is mutated. -/
theorem run_on_empty_selection (cfg : Config) (r : FetchResponses) (smtpOk : Bool)
    (hcred : (truthy cfg.email_user && truthy cfg.email_password
      && truthy cfg.recipient_email) = true)
    (hempty : compile_trends cfg r = []) :
    run cfg r smtpOk = ⟨true, true, some [], smtpOk⟩ := by
  unfold run
  rw [hcred]
  simp [hempty]

/-- Witness for C3 (amended), at the all-sources-down world. -/
theorem run_on_empty_selection_witness :
    run cfgAll respErr true = ⟨true, true, some [], true⟩ :=
  run_on_empty_selection cfgAll respErr true (by decide) (by decide)

/-- C4 (counterexample): two candidates sharing one url both survive
selection — `compile_trends` performs no per-url deduplication. -/
theorem compile_trends_no_dedup_cex :
    (compile_trends cfgAll respDupUrl).countP
      (fun t => t.url == "https://example.com/same") = 2 := by
  rfl

/-- C4 (amended): the selection stage keeps every candidate, duplicated urls
included: its output is an initial segment of a permutation of the
concatenated candidates, and that permutation preserves the number of items
per url exactly — the only loss is the top-20 truncation. -/
theorem compile_trends_keeps_url_duplicates (cfg : Config) (r : FetchResponses) :
    List.Perm (sortByPointsDesc (allCandidates cfg r)) (allCandidates cfg r) ∧
    (∀ u : String, (sortByPointsDesc (allCandidates cfg r)).countP (fun t => t.url == u)
      = (allCandidates cfg r).countP (fun t => t.url == u)) ∧
    ∃ rest, sortByPointsDesc (allCandidates cfg r) = compile_trends cfg r ++ rest :=
  ⟨sortByPointsDesc_perm _,
   fun u => (sortByPointsDesc_perm _).countP_eq (fun t => t.url == u),
   ⟨(sortByPointsDesc (allCandidates cfg r)).drop 20, (List.take_append_drop 20 _).symm⟩⟩

/-- C5: every adapter maps any internal failure (network error, timeout,
unparsable response — the `.error` case) to the empty list; being total Lean
functions, they never propagate the failure to the caller. -/
theorem adapters_empty_on_failure (e : String) (key : Option String)
    (r2 r3 : Except String (List RedditPost)) :
    get_hacker_news_ai_posts (.error e) = [] ∧
    get_reddit_ml_posts (.error e) r2 r3 = [] ∧
    get_arxiv_papers (.error e) = [] ∧
    get_github_trending (.error e) = [] ∧
    get_newsapi_articles key (.error e) = [] := by
  refine ⟨rfl, rfl, rfl, rfl, ?_⟩
  unfold get_newsapi_articles
  split <;> rfl

/-- C6 (counterexample): the first subreddit yields a valid post, the second
request fails, the third would yield another — yet the adapter returns `[]`,
discarding the collected partial results and skipping the rest. -/
theorem reddit_partial_failure_cex :
    get_reddit_ml_posts
      (.ok [⟨some "Deep nets", "/r/MachineLearning/comments/1", some 7, false⟩])
      (.error "timeout")
      (.ok [⟨some "New dataset", "/r/datascience/comments/2", some 4, false⟩]) = [] ∧
    redditNormalize "MachineLearning"
      [⟨some "Deep nets", "/r/MachineLearning/comments/1", some 7, false⟩]
      = [⟨"Deep nets", "https://reddit.com/r/MachineLearning/comments/1", 7,
          "r/MachineLearning"⟩] := by
  exact ⟨rfl, rfl⟩

/-- C6 (amended): the whole subreddit loop sits in one `try`, so a failure
in any sub-query aborts the adapter, which returns `[]` and discards the
results already collected; the per-subreddit results are concatenated only
when every sub-query succeeds. -/
theorem reddit_subquery_failure_aborts :
    (∀ (e : String) (r2 r3 : Except String (List RedditPost)),
      get_reddit_ml_posts (.error e) r2 r3 = []) ∧
    (∀ (p1 : List RedditPost) (e : String) (r3 : Except String (List RedditPost)),
      get_reddit_ml_posts (.ok p1) (.error e) r3 = []) ∧
    (∀ (p1 p2 : List RedditPost) (e : String),
      get_reddit_ml_posts (.ok p1) (.ok p2) (.error e) = []) ∧
    (∀ p1 p2 p3 : List RedditPost,
      get_reddit_ml_posts (.ok p1) (.ok p2) (.ok p3)
        = redditNormalize "MachineLearning" p1 ++ redditNormalize "artificial" p2
            ++ redditNormalize "datascience" p3) := by
  refine ⟨fun e r2 r3 => rfl, fun p1 e r3 => rfl, fun p1 p2 e => rfl, fun p1 p2 p3 => ?_⟩
  simp [get_reddit_ml_posts, redditLoop]

/-- C7: if any of the three required delivery settings is unset (or empty,
which Python's truthiness treats alike), `run` returns failure without
fetching anything; whereas an absent NewsAPI key only makes that one
adapter return `[]`, and `run` still proceeds, its result being the send
outcome. -/
theorem run_requires_credentials :
    (∀ (cfg : Config) (r : FetchResponses) (smtpOk : Bool),
      (truthy cfg.email_user && truthy cfg.email_password
        && truthy cfg.recipient_email) = false →
      run cfg r smtpOk = ⟨false, false, none, false⟩) ∧
    (∀ resp : Except String NewsResponse, get_newsapi_articles none resp = []) ∧
    (∀ (r : FetchResponses) (smtpOk : Bool) (u p d : String),
      u ≠ "" → p ≠ "" → d ≠ "" →
      (run ⟨some u, some p, some d, none⟩ r smtpOk).fetched = true ∧
      (run ⟨some u, some p, some d, none⟩ r smtpOk).result = smtpOk) := by
  refine ⟨?_, fun resp => rfl, ?_⟩
  · intro cfg r smtpOk h
    unfold run
    rw [h]
    rfl
  · intro r smtpOk u p d hu hp hd
    constructor <;> simp [run, truthy, hu, hp, hd]

/-- Witness for C7, with one credential absent and then all present. -/
theorem run_requires_credentials_witness :
    run ⟨none, some "hunter2", some "reader@example.com", none⟩ respErr true
      = ⟨false, false, none, false⟩ ∧
    get_newsapi_articles none (.ok ⟨"ok", [⟨some "T", some "https://n.example", none⟩]⟩) = [] ∧
    (run ⟨some "monitor@example.com", some "hunter2", some "reader@example.com", none⟩
      respErr true).fetched = true :=
  ⟨run_requires_credentials.1 _ respErr true (by decide),
   run_requires_credentials.2.1 _,
   (run_requires_credentials.2.2 respErr true "monitor@example.com" "hunter2"
     "reader@example.com" (by decide) (by decide) (by decide)).1⟩

/-- C8 (counterexample): an arXiv entry whose title is whitespace is
normalized to an empty title, and the selection stage does not re-validate:
the empty-titled item is part of `compile_trends`' output. -/
theorem compile_trends_empty_title_cex :
    compile_trends cfgAll respArxivBlank
      = [⟨"", "http://arxiv.org/abs/2401.0001", 0, "arXiv"⟩] := by
  rfl

/-- C8 (amended): the Hacker News, Reddit and NewsAPI adapters do drop items
with an empty or missing title or url during normalization, but the arXiv
(and GitHub) adapters perform no such validation and `compile_trends` does
not re-validate, so an invalid item from those sources reaches the output. -/
theorem adapters_validate_title_url :
    (∀ (resp : Except String (List HNHit)) (t : Trend),
      t ∈ get_hacker_news_ai_posts resp → t.title ≠ "" ∧ t.url ≠ "") ∧
    (∀ (r1 r2 r3 : Except String (List RedditPost)) (t : Trend),
      t ∈ get_reddit_ml_posts r1 r2 r3 → t.title ≠ "" ∧ t.url ≠ "") ∧
    (∀ (key : Option String) (resp : Except String NewsResponse) (t : Trend),
      t ∈ get_newsapi_articles key resp → t.title ≠ "" ∧ t.url ≠ "") := by
  refine ⟨?_, ?_, ?_⟩
  · intro resp t ht
    cases resp with
    | error e => exact absurd ht (by simp [get_hacker_news_ai_posts])
    | ok hits =>
        obtain ⟨h, _, he⟩ := List.mem_filterMap.mp ht
        exact hnNormalize_title_url he
  · intro r1 r2 r3 t ht
    obtain ⟨sub, p, hp⟩ := get_reddit_ml_posts_mem ht
    exact redditNormalizePost_title_url hp
  · intro key resp t ht
    unfold get_newsapi_articles at ht
    split at ht
    · split at ht
      · exact absurd ht (by simp)
      · split at ht
        · exact absurd ht (by simp)
        · obtain ⟨a, _, ha⟩ := List.mem_filterMap.mp ht
          exact newsNormalize_title_url ha
    · exact absurd ht (by simp)

/-- Witness for C8 (amended): one normalized item of each validating
adapter, with nonempty title and url. -/
theorem adapters_validate_title_url_witness :
    ((Trend.mk "AI beats benchmark" "https://example.com/a" 5 "Hacker News").title ≠ ""
      ∧ (Trend.mk "AI beats benchmark" "https://example.com/a" 5 "Hacker News").url ≠ "") ∧
    ((Trend.mk "Deep nets" "https://reddit.com/r/MachineLearning/comments/1" 7
        "r/MachineLearning").title ≠ ""
      ∧ (Trend.mk "Deep nets" "https://reddit.com/r/MachineLearning/comments/1" 7
        "r/MachineLearning").url ≠ "") ∧
    ((Trend.mk "GPT advances" "https://news.example/x" 0 "News: Unknown").title ≠ ""
      ∧ (Trend.mk "GPT advances" "https://news.example/x" 0 "News: Unknown").url ≠ "") :=
  ⟨adapters_validate_title_url.1
      (.ok [⟨some "AI beats benchmark", some "https://example.com/a", some 5⟩]) _ (by decide),
   adapters_validate_title_url.2.1
      (.ok [⟨some "Deep nets", "/r/MachineLearning/comments/1", some 7, false⟩])
      (.ok []) (.ok []) _ (by decide),
   adapters_validate_title_url.2.2 (some "newskey")
      (.ok ⟨"ok", [⟨some "GPT advances", some "https://news.example/x", none⟩]⟩) _ (by decide)⟩

/-- C9: round-trip laws of the Delivery Ledger, modelled from the spec
(no ledger code exists in the repository): loading a saved set returns it
exactly, and loading after committing `S` yields a superset of `S`. -/
theorem ledger_roundtrip (S : Finset String) (file : Option (List String)) :
    ledgerLoad (some (ledgerSave S)) = S ∧
    S ⊆ ledgerLoad (some (ledgerCommit (ledgerLoad file) S)) := by
  constructor
  · exact Finset.sort_toFinset _ _
  · show S ⊆ ((ledgerLoad file ∪ S).sort (· ≤ ·)).toFinset
    rw [Finset.sort_toFinset]
    exact Finset.subset_union_right

/-- C10: no item returned by the NewsAPI adapter has a title containing the
substring `[Removed]`: such placeholder articles are skipped even when their
title and url are nonempty. -/
theorem newsapi_filters_removed (key : Option String) (resp : Except String NewsResponse)
    (t : Trend) (h : t ∈ get_newsapi_articles key resp) :
    containsSub t.title "[Removed]" = false := by
  unfold get_newsapi_articles at h
  split at h
  · split at h
    · exact absurd h (by simp)
    · split at h
      · exact absurd h (by simp)
      · obtain ⟨a, _, ha⟩ := List.mem_filterMap.mp h
        exact newsNormalize_not_removed ha
  · exact absurd h (by simp)

/-- Witness for C10: a surviving concrete article's title is free of the
placeholder marker. -/
theorem newsapi_filters_removed_witness :
    containsSub "GPT advances" "[Removed]" = false :=
  newsapi_filters_removed (some "newskey")
    (.ok ⟨"ok", [⟨some "GPT advances", some "https://news.example/x", none⟩]⟩)
    ⟨"GPT advances", "https://news.example/x", 0, "News: Unknown"⟩ (by decide)
